import Mathlib

/-
Verification of the open-addressing hash table in
src/C/Hashtables/Open_Addressing/src/open_addressing.c.

The C code is shallowly embedded below.  Machine integers are modelled as
Nat/Int with explicit reduction modulo 2^32 (unsigned int) or 2^64 (size_t)
where the C arithmetic can wrap.  The C float thresholds (load factors) are
modelled as exact fractions, and the float comparisons as exact rational
comparisons performed by cross multiplication.  Partial behaviour is made
explicit through Option: a `none` result models abnormal termination of the
C code (a call to exit(), an out-of-bounds access, or an infinite loop).
-/

namespace OpenAddressing

/- Error return codes from open_addressing.h. -/

def HT_FAILURE : Int := 1

def HT_SUCCESS : Int := 0

def HT_KEY_EXISTS : Int := -1

def HT_NO_SPACE : Int := -2

def HT_KEY_NOT_FOUND : Int := -3

def HT_MEM_ERROR : Int := -4

def HT_INVALID_ARG : Int := -5

def HT_INVALID_STATE : Int := -6

def DEFAULT_SIZE_MAX : Nat := 1048576

def DEFAULT_SIZE_MIN : Nat := 13

/-- Modulus of C unsigned int arithmetic. -/
def U32 : Nat := 2 ^ 32

/-- Modulus of C size_t arithmetic. -/
def U64 : Nat := 2 ^ 64

/-- Exact model of a C float threshold value (all thresholds that occur are
small exact fractions such as 0.5, 0.25, 0.1). -/
structure Frac where
  num : Nat
  den : Nat
deriving DecidableEq, Repr

/-- Models `(float)a / b >= f` by cross multiplication (exact arithmetic;
for b = 0 the C division yields +inf and the comparison is true, matched
here because the right side becomes 0). -/
def ratioGe (a b : Nat) (f : Frac) : Bool :=
  f.num * b ≤ a * f.den

/-- Models `(float)a / b < f` by cross multiplication (for b = 0 the C
division yields +inf or NaN and the comparison is false, matched here
because the right side becomes 0). -/
def ratioLt (a b : Nat) (f : Frac) : Bool :=
  a * f.den < f.num * b

/-- Models `(float)a / b > f` by cross multiplication. -/
def ratioGt (a b : Nat) (f : Frac) : Bool :=
  f.num * b < a * f.den

def DEFAULT_LOAD_FACTOR : Frac := ⟨1, 2⟩

def DEFAULT_MIN_LOAD_FACTOR : Frac := ⟨1, 4⟩

def DEFAULT_INACTIVE_FACTOR : Frac := ⟨1, 10⟩

/-- The probing method enum. -/
inductive ProbingMethod where
  | LINEAR
  | QUADRATIC
  | DOUBLE_HASHING
deriving DecidableEq, Repr

/-- struct htentry: flag is 0 (empty), 1 (occupied) or 2 (deleted);
KEY_TYPE and VALUE_TYPE default to int. -/
structure HTentry where
  flag : Nat
  key : Int
  value : Int
deriving DecidableEq, Repr

/-- struct hashtab.  The slot array is a list whose length is the `size`
field in every well-formed state. -/
structure HashTab where
  table : List HTentry
  size : Nat
  used : Nat
  active : Nat
  delta_idx : Nat
  prev_size : Nat
  max_size : Nat
  min_size : Nat
  load_factor : Frac
  min_load_factor : Frac
  inactive_factor : Frac
  hash : Int → Nat → Nat
  matchFn : Int → Int → Int
  probing_method : ProbingMethod

/-- The precomputed delta array: capacity candidates are 2^i + delta[i]. -/
def delta : List Nat :=
  [1, 0, 1, 3, 1, 5, 3, 3, 1, 9, 7, 5, 3, 17, 27, 3, 1, 29, 3, 21, 7, 17,
   15, 9, 43, 35, 15, 29, 3, 11]


/-- True when n is divisible by none of the count odd candidates
lo, lo + 2, ..., lo + 2*(count - 1) whose square is at most n: the range
is split in halves, so both
the recursion depth and the kernel reduction depth stay logarithmic in
count (fuel only bounds that depth).  Kernel-reducible, so concrete
instances evaluate by decide. -/
def noOddDivisorIn (n : Nat) : Nat → Nat → Nat → Bool
  | 0, _, _ => false
  | fuel + 1, lo, count =>
    if count = 0 then true
    else if count = 1 then decide (n < lo * lo ∨ ¬ n % lo = 0)
    else
      noOddDivisorIn n fuel lo (count / 2) &&
      noOddDivisorIn n fuel (lo + 2 * (count / 2)) (count - count / 2)

/-- A primality check by trial division: 2 passes, and an odd number
passes when the odd candidates 3, 5, ..., 3 + 2*count reach past its
square root (the first conjunct) and none of them divides it.  Any count
makes a true result sound; the uses below pick one just past the square
root. -/
def primeCheck (n count : Nat) : Bool :=
  if n < 2 then false
  else if n = 2 then true
  else if n % 2 = 0 then false
  else
    decide (n < (3 + 2 * count) * (3 + 2 * count)) &&
    noOddDivisorIn n 64 3 (count + 1)

/-- Models the C statement `x = x++;` on a counter field: the postfix
increment stores x + 1, and the assignment then overwrites the field with
the saved original value, so the field is left unchanged (this is how the
major compilers translate the expression; the C standard makes it
undefined).  Every counter update in the source uses this pattern. -/
def selfAssignInc (x : Nat) : Nat := x

/-- Models the C statement `x = x--;`: as with `selfAssignInc`, the field is
left unchanged. -/
def selfAssignDec (x : Nat) : Nat := x

/-- FNV-1a over the 4 bytes of the int key (little-endian two's
complement), then reduced modulo the table size: default_hash_function. -/
def default_hash_function (key : Int) (size : Nat) : Nat :=
  let k := (key % (U32 : Int)).toNat
  let bytes := [k % 256, k / 256 % 256, k / 256 ^ 2 % 256, k / 256 ^ 3 % 256]
  let h := bytes.foldl (fun h b => ((h ^^^ b) * 16777619) % U32) 2166136261
  h % size

/-- default_key_compare: returns a - b (zero exactly on equal keys). -/
def default_key_compare (a b : Int) : Int := a - b

/-- init_ht.  A zero argument selects the documented default; a missing
function pointer (NULL) selects the default function.  The table is
calloc-ed, so every slot starts as flag 0 with zeroed key and value.  The
initial capacity is 2^delta_idx + delta[delta_idx] with delta_idx = 1
(the index 1 is a literal in the source, so the array access is in
bounds and `getD` never takes its default). -/
def init_ht (max_size min_size : Nat) (lf mlf iaf : Frac)
    (hash : Option (Int → Nat → Nat)) (matchFn : Option (Int → Int → Int))
    (probing_method : ProbingMethod) : HashTab :=
  let delta_idx := 1
  let size := 2 ^ delta_idx + delta.getD delta_idx 0
  { table := List.replicate size ⟨0, 0, 0⟩
    size := size
    used := 0
    active := 0
    delta_idx := delta_idx
    prev_size := size
    max_size := if max_size = 0 then DEFAULT_SIZE_MAX else max_size
    min_size := if min_size = 0 then DEFAULT_SIZE_MIN else min_size
    load_factor := if lf.num = 0 then DEFAULT_LOAD_FACTOR else lf
    min_load_factor := if mlf.num = 0 then DEFAULT_MIN_LOAD_FACTOR else mlf
    inactive_factor := if iaf.num = 0 then DEFAULT_INACTIVE_FACTOR else iaf
    hash := hash.getD default_hash_function
    matchFn := matchFn.getD default_key_compare
    probing_method := probing_method }

/-- Loop of linear_probe_search.  The do-while walks current_index from the
hash index with step +1 mod size and stops when the walk returns to the
hash index; with a hash index below `size` that is at most `size` body
executions, so the caller passes `size` as fuel and the fuel-exhausted
`none` is unreachable.  Reading a slot out of range of the actual table is
undefined behaviour in C and yields `none` here. -/
def linSearchAux (tbl : List HTentry) (mf : Int → Int → Int) (key : Int)
    (size hash_index : Nat) : Nat → Nat → Option Int
  | 0, _ => none
  | fuel + 1, current_index =>
    (tbl.get? current_index).bind fun e =>
      if e.flag = 0 then some HT_KEY_NOT_FOUND
      else if e.flag = 2 then
        let nxt := (current_index + 1) % size
        if nxt = hash_index then some HT_KEY_NOT_FOUND
        else linSearchAux tbl mf key size hash_index fuel nxt
      else if e.flag = 1 then
        if mf e.key key = 0 then some (current_index : Int)
        else
          let nxt := (current_index + 1) % size
          if nxt = hash_index then some HT_KEY_NOT_FOUND
          else linSearchAux tbl mf key size hash_index fuel nxt
      else none

/-- linear_probe_search: an invalid flag calls exit(), modelled by
`none`. -/
def linear_probe_search (ht : HashTab) (key : Int) : Option Int :=
  let hash_index := ht.hash key ht.size
  linSearchAux ht.table ht.matchFn key ht.size hash_index ht.size hash_index

/-- The quadratic probe index
`(hash_index + ((i + i * i) >> 1)) % table_size` with the unsigned int
additions and multiplication wrapping modulo 2^32. -/
def quadProbeIndex (hash_index i table_size : Nat) : Nat :=
  (hash_index + (i + i * i) % U32 / 2) % U32 % table_size

/-- Loop of quadratic_probe_search: i runs from 0 while i < size, so at
most `size` body executions; the caller passes `size` as fuel, which makes
the fuel-exhausted `none` unreachable because the recursion is guarded by
i + 1 < size. -/
def quadSearchAux (tbl : List HTentry) (mf : Int → Int → Int) (key : Int)
    (table_size hash_index : Nat) : Nat → Nat → Option Int
  | 0, _ => none
  | fuel + 1, i =>
    let probe_index := quadProbeIndex hash_index i table_size
    (tbl.get? probe_index).bind fun e =>
      if e.flag = 0 then some HT_KEY_NOT_FOUND
      else if e.flag = 2 then
        if i + 1 < table_size then
          quadSearchAux tbl mf key table_size hash_index fuel (i + 1)
        else some HT_KEY_NOT_FOUND
      else if e.flag = 1 then
        if mf e.key key = 0 then some (probe_index : Int)
        else if i + 1 < table_size then
          quadSearchAux tbl mf key table_size hash_index fuel (i + 1)
        else some HT_KEY_NOT_FOUND
      else none

/-- quadratic_probe_search. -/
def quadratic_probe_search (ht : HashTab) (key : Int) : Option Int :=
  quadSearchAux ht.table ht.matchFn key ht.size (ht.hash key ht.size)
    ht.size 0

/-- search_ht dispatches on the probing method; an unsupported method
calls exit(), modelled by `none`. -/
def search_ht (ht : HashTab) (key : Int) : Option Int :=
  match ht.probing_method with
  | .LINEAR => linear_probe_search ht key
  | .QUADRATIC => quadratic_probe_search ht key
  | .DOUBLE_HASHING => none

/-- fetch_ht returns table[index].value with no validation of any kind
(the TODO in the source acknowledges the missing index validation); an
out-of-range index is an out-of-bounds read, modelled by `none`. -/
def fetch_ht (ht : HashTab) (index : Nat) : Option Int :=
  (ht.table.get? index).map (·.value)

/-- Loop of linear_probe_insert: returns `some (some idx)` for the first
slot with flag 0 or 2, `some none` when the walk wraps around without
finding one (HT_NO_SPACE), and `none` on an invalid flag (exit) or an
out-of-range read. -/
def linInsertAux (tbl : List HTentry) (size hash_index : Nat) :
    Nat → Nat → Option (Option Nat)
  | 0, _ => none
  | fuel + 1, current_index =>
    (tbl.get? current_index).bind fun e =>
      if e.flag = 0 ∨ e.flag = 2 then some (some current_index)
      else if e.flag = 1 then
        let nxt := (current_index + 1) % size
        if nxt = hash_index then some none
        else linInsertAux tbl size hash_index fuel nxt
      else none

/-- linear_probe_insert.  On success the slot is written Occupied with the
key and value; `used = used++` (executed only when the slot was Empty) and
`active = active++` are self-cancelling, so both counters are recorded
unchanged. -/
def linear_probe_insert (ht : HashTab) (key value : Int) :
    Option (HashTab × Int) :=
  let hash_index := ht.hash key ht.size
  (linInsertAux ht.table ht.size hash_index ht.size hash_index).map fun r =>
    match r with
    | none => (ht, HT_NO_SPACE)
    | some idx =>
      ({ ht with
          table := ht.table.set idx ⟨1, key, value⟩
          used := selfAssignInc ht.used
          active := selfAssignInc ht.active }, HT_SUCCESS)

/-- Loop of quadratic_probe_insert.  In the source the occupied case
executes `continue`, which jumps to the `while (i < table_size)` test
without executing the `i++` at the bottom of the loop body (that `i++` is
unreachable on every path), so the loop re-probes the same index with the
same i; fuel exhaustion (`none`) therefore models non-termination. -/
def quadInsertAux (tbl : List HTentry) (table_size hash_index : Nat) :
    Nat → Nat → Option (Option Nat)
  | 0, _ => none
  | fuel + 1, i =>
    let probe_index := quadProbeIndex hash_index i table_size
    (tbl.get? probe_index).bind fun e =>
      if e.flag = 0 ∨ e.flag = 2 then some (some probe_index)
      else if e.flag = 1 then
        if i < table_size then quadInsertAux tbl table_size hash_index fuel i
        else some none
      else none

/-- quadratic_probe_insert, with the same self-cancelling counter updates
as the linear variant. -/
def quadratic_probe_insert (fuel : Nat) (ht : HashTab) (key value : Int) :
    Option (HashTab × Int) :=
  (quadInsertAux ht.table ht.size (ht.hash key ht.size) fuel 0).map fun r =>
    match r with
    | none => (ht, HT_NO_SPACE)
    | some probe_index =>
      ({ ht with
          table := ht.table.set probe_index ⟨1, key, value⟩
          used := selfAssignInc ht.used
          active := selfAssignInc ht.active }, HT_SUCCESS)

/-- The replay loop inside rehash, parameterized by the insert operation
(insert_ht at the enclosing recursion budget): every old entry with flag 1
is re-inserted; a failed replay insert only prints a warning in the source
and the loop carries on. -/
def replayWith (ins : HashTab → Int → Int → Option (HashTab × Int)) :
    List HTentry → HashTab → Option HashTab
  | [], ht => some ht
  | e :: rest, ht =>
    if e.flag = 1 then
      (ins ht e.key e.value).bind fun p => replayWith ins rest p.1
    else replayWith ins rest ht

/-- rehash with a successful allocation, parameterized like `replayWith`:
the calloc-ed table of `target` zeroed slots is installed together with
size := target and active := 0 (used is not reset), the old entries are
replayed, the old array is freed and HT_SUCCESS is returned (the function
has no failure path). -/
def rehashWith (ins : HashTab → Int → Int → Option (HashTab × Int))
    (ht : HashTab) (target : Nat) : Option (HashTab × Int) :=
  let new_table := List.replicate target (⟨0, 0, 0⟩ : HTentry)
  (replayWith ins ht.table
      { ht with table := new_table, size := target, active := 0 }).map
    (fun ht2 => (ht2, HT_SUCCESS))

/-- The switch on the probing method at the end of insert_ht: a probe
insert status other than HT_SUCCESS is turned into HT_FAILURE, an
unsupported probing method calls exit() (`none`). -/
def probe_insert_dispatch (qfuel : Nat) (ht : HashTab) (key value : Int) :
    Option (HashTab × Int) :=
  match ht.probing_method with
  | .LINEAR =>
    (linear_probe_insert ht key value).map fun p =>
      if p.2 ≠ HT_SUCCESS then (p.1, HT_FAILURE) else (p.1, HT_SUCCESS)
  | .QUADRATIC =>
    (quadratic_probe_insert qfuel ht key value).map fun p =>
      if p.2 ≠ HT_SUCCESS then (p.1, HT_FAILURE) else (p.1, HT_SUCCESS)
  | .DOUBLE_HASHING => none

/-- The body of insert_ht, parameterized by the rehash operation available
at the current recursion budget (`none` models an exhausted budget, i.e. a
non-terminating nest of rehashes) and by the fuel passed on to the
quadratic probing loop.  The initial search uses the pre-rehash table (as
in the source).  The grow branch computes the target
2^(delta_idx+1) + delta[delta_idx+1] (an out-of-bounds delta access is
undefined behaviour, `none`), saves prev_size, calls rehash ignoring its
status, and then executes `delta_idx = delta_idx++`, which leaves
delta_idx unchanged. -/
def insertStep (qfuel : Nat)
    (reh : Option (HashTab → Nat → Option (HashTab × Int)))
    (ht : HashTab) (key value : Int) : Option (HashTab × Int) :=
  (search_ht ht key).bind fun search_status =>
  if search_status ≠ HT_KEY_NOT_FOUND then some (ht, HT_KEY_EXISTS)
  else
    let step1 : Option HashTab :=
      if ratioGe (ht.used + 1) ht.size ht.load_factor then
        reh.bind fun r =>
        (delta.get? (ht.delta_idx + 1)).bind fun d =>
        (r { ht with prev_size := ht.size }
            (2 ^ (ht.delta_idx + 1) + d)).map
          (fun p => { p.1 with delta_idx := selfAssignInc p.1.delta_idx })
      else some ht
    step1.bind fun ht1 => probe_insert_dispatch qfuel ht1 key value

/-- insert_ht.  The fuel bounds the depth of the mutual recursion
insert -> rehash -> insert (and the quadratic probing loop); `none` from
fuel exhaustion models non-termination of the C code. -/
def insert_ht : Nat → HashTab → Int → Int → Option (HashTab × Int)
  | 0, ht, key, value => insertStep 0 none ht key value
  | fuel + 1, ht, key, value =>
    insertStep (fuel + 1)
      (some (fun h t => rehashWith (insert_ht fuel) h t)) ht key value

/-- rehash at a given recursion budget. -/
def rehash (fuel : Nat) (ht : HashTab) (target : Nat) :
    Option (HashTab × Int) :=
  rehashWith (insert_ht fuel) ht target

/-- rehash with the allocation outcome made explicit.  The source never
checks the calloc result: on allocation failure the NULL table (modelled
as the empty slot list, every access to which is a crash) is installed
exactly as a real one would be, the old entries are replayed into it
(crashing on the first live entry), the old array is freed, and
HT_SUCCESS is still returned; HT_MEM_ERROR is never produced. -/
def rehash_alloc (fuel : Nat) (allocOk : Bool) (ht : HashTab)
    (target : Nat) : Option (HashTab × Int) :=
  let new_table :=
    if allocOk then List.replicate target (⟨0, 0, 0⟩ : HTentry) else []
  (replayWith (insert_ht fuel) ht.table
      { ht with table := new_table, size := target, active := 0 }).map
    (fun ht2 => (ht2, HT_SUCCESS))

/-- try_downsize.  The local variable prev_size is read before it is ever
written (both as the rehash target and in the <= min_size test); that
indeterminate value is passed in as `garbage`.  After the downsize rehash
the code executes `delta_idx = delta_idx--` (self-cancelling) and then
stores 2^(delta_idx-1) + delta[delta_idx-1] into the dead local, whose
array read can itself be out of bounds (size_t wraparound on
delta_idx = 0). -/
def try_downsize (fuel garbage : Nat) (ht : HashTab) :
    Option (HashTab × Int) :=
  let usedMinusActive := (ht.used + U64 - ht.active) % U64
  if ratioGt usedMinusActive ht.size ht.inactive_factor
      || ratioLt ht.active ht.size ht.min_load_factor then
    if ratioLt ht.active ht.prev_size ht.load_factor then
      (rehash fuel ht garbage).bind fun p =>
        let ht2 := { p.1 with delta_idx := selfAssignDec p.1.delta_idx }
        (delta.get? ((ht2.delta_idx + U64 - 1) % U64)).map
          (fun _ => (ht2, p.2))
    else if garbage ≤ ht.min_size then
      rehash fuel ht ht.size
    else some (ht, HT_SUCCESS)
  else some (ht, HT_SUCCESS)

/-- remove_ht: a failed search returns HT_KEY_NOT_FOUND; otherwise the
found slot's flag is set to 2 (key and value are left in place),
`active = active--` leaves the counter unchanged, try_downsize runs with
its status ignored, and HT_SUCCESS is returned. -/
def remove_ht (fuel garbage : Nat) (ht : HashTab) (key : Int) :
    Option (HashTab × Int) :=
  (search_ht ht key).bind fun key_index =>
  if key_index < 0 then some (ht, HT_KEY_NOT_FOUND)
  else
    (ht.table.get? key_index.toNat).bind fun e =>
    let ht1 := { ht with
        table := ht.table.set key_index.toNat { e with flag := 2 }
        active := selfAssignDec ht.active }
    (try_downsize fuel garbage ht1).map fun p => (p.1, HT_SUCCESS)

/-- size_ht. -/
def size_ht (ht : HashTab) : Nat := ht.size

/-- Well-formedness of a table state: the slot list has length `size`, the
capacity is positive, and every slot carries a recognized flag. -/
def WF (ht : HashTab) : Prop :=
  ht.table.length = ht.size ∧ 0 < ht.size ∧ ∀ e ∈ ht.table, e.flag < 3

/-- The injected hash function lands inside the table for every capacity,
as the default hash function does by its final reduction mod size. -/
def HashInRange (ht : HashTab) : Prop :=
  ∀ k s, 0 < s → ht.hash k s < s

/-- No occupied slot of the table holds a key that the table's comparison
function reports equal to `key`: the key is not present. -/
def NoKeyMatch (ht : HashTab) (key : Int) : Prop :=
  ∀ e ∈ ht.table, e.flag = 1 → ht.matchFn e.key key ≠ 0

/-- The capability fields of the table (hash, comparison, probing method)
of `b` agree with those of `a`: no public operation ever rewrites them. -/
def fieldsEq (a b : HashTab) : Prop :=
  b.hash = a.hash ∧ b.matchFn = a.matchFn ∧ b.probing_method = a.probing_method

/- Concrete states used as test vectors.  The injected hash and comparison
functions below are legitimate arguments of init_ht. -/

/-- An injected hash function that reduces the key modulo the size. -/
def simpleHash : Int → Nat → Nat := fun k s => k.natAbs % s

/-- An injected comparison with the same shape as default_key_compare. -/
def matchSub : Int → Int → Int := fun a b => a - b

/-- An injected hash function sending every key to slot 0. -/
def zeroHash : Int → Nat → Nat := fun _ _ => 0

/-- A fresh table with every configuration argument defaulted, linear
probing. -/
def defaultInit : HashTab :=
  init_ht 0 0 ⟨0, 0⟩ ⟨0, 0⟩ ⟨0, 0⟩ (some simpleHash) (some matchSub)
    ProbingMethod.LINEAR

/-- The state after insert(1, 100) into the fresh default table (the
insert succeeds, growing the table from capacity 2 to 5 on the way). -/
def insertedOne : HashTab :=
  ((insert_ht 10 defaultInit 1 100).map Prod.fst).getD defaultInit

/-- A fresh table with quadratic probing and an all-colliding hash. -/
def quadInit : HashTab :=
  init_ht 0 0 ⟨0, 0⟩ ⟨0, 0⟩ ⟨0, 0⟩ (some zeroHash) (some matchSub)
    ProbingMethod.QUADRATIC

/-- The quadratic-probing state after insert(1, 100): key 1 occupies
slot 0, the slot every further key probes first. -/
def quadOne : HashTab :=
  ((insert_ht 10 quadInit 1 100).map Prod.fst).getD quadInit

end OpenAddressing

namespace OpenAddressing

/- Primality and minimality of each entry of the delta table.  The
primality side evaluates the trial-division checker by decide (shallow,
kernel-sized proof terms); the minimality side exhibits a factor of each
smaller candidate through norm_num. -/

theorem noOddDivisorIn_sound (n : Nat) :
    ∀ fuel lo count, noOddDivisorIn n fuel lo count = true →
      ∀ j < count, n < (lo + 2 * j) * (lo + 2 * j) ∨ ¬ n % (lo + 2 * j) = 0 := by
  intro fuel
  induction fuel with
  | zero => intro lo count h; exact absurd h (by simp [noOddDivisorIn])
  | succ f ih =>
    intro lo count h j hj
    simp only [noOddDivisorIn] at h
    by_cases h0 : count = 0
    · omega
    · rw [if_neg h0] at h
      by_cases h1 : count = 1
      · rw [if_pos h1] at h
        have hj0 : j = 0 := by omega
        subst hj0
        simpa using of_decide_eq_true h
      · rw [if_neg h1] at h
        rw [Bool.and_eq_true] at h
        by_cases hjh : j < count / 2
        · exact ih lo (count / 2) h.1 j hjh
        · have h2 := ih (lo + 2 * (count / 2)) (count - count / 2) h.2
            (j - count / 2) (by omega)
          have harith : lo + 2 * (count / 2) + 2 * (j - count / 2)
              = lo + 2 * j := by omega
          rw [harith] at h2
          exact h2

theorem primeCheck_sound (n count : Nat) (h : primeCheck n count = true) :
    Nat.Prime n := by
  unfold primeCheck at h
  by_cases h1 : n < 2
  · rw [if_pos h1] at h; exact Bool.noConfusion h
  · rw [if_neg h1] at h
    by_cases h2 : n = 2
    · subst h2; exact Nat.prime_two
    · rw [if_neg h2] at h
      by_cases h3 : n % 2 = 0
      · rw [if_pos h3] at h; exact Bool.noConfusion h
      · rw [if_neg h3] at h
        rw [Bool.and_eq_true] at h
        have hbound : n < (3 + 2 * count) * (3 + 2 * count) :=
          of_decide_eq_true h.1
        refine Nat.prime_def_le_sqrt.mpr ⟨by omega, ?_⟩
        intro m hm2 hmsqrt hdvd
        have hmm : m * m ≤ n := Nat.le_sqrt.mp hmsqrt
        rcases Nat.even_or_odd m with hev | hod
        · obtain ⟨k, hk⟩ := hev
          have h2n : (2 : Nat) ∣ n := dvd_trans ⟨k, by omega⟩ hdvd
          exact h3 (Nat.dvd_iff_mod_eq_zero.mp h2n)
        · obtain ⟨k, hk⟩ := hod
          have hm3 : 3 ≤ m := by omega
          have hmlt : m < 3 + 2 * count := by
            by_contra hge
            have := Nat.mul_le_mul (Nat.le_of_not_lt hge) (Nat.le_of_not_lt hge)
            omega
          have hcov := noOddDivisorIn_sound n 64 3 (count + 1) h.2
            ((m - 3) / 2) (by omega)
          have harith : 3 + 2 * ((m - 3) / 2) = m := by omega
          rw [harith] at hcov
          rcases hcov with hclt | hcnd
          · omega
          · exact hcnd (Nat.dvd_iff_mod_eq_zero.mp hdvd)

set_option maxRecDepth 10000 in
theorem delta_spec_0 : Nat.Prime (2 ^ 0 + 1) ∧ ∀ d < 1, ¬ Nat.Prime (2 ^ 0 + d) := by
  refine ⟨primeCheck_sound _ 1 (by decide), ?_⟩
  intro d hd
  interval_cases d
  norm_num

set_option maxRecDepth 10000 in
theorem delta_spec_1 : Nat.Prime (2 ^ 1 + 0) ∧ ∀ d < 0, ¬ Nat.Prime (2 ^ 1 + d) := by
  exact ⟨primeCheck_sound _ 1 (by decide), fun d hd => absurd hd (by omega)⟩

set_option maxRecDepth 10000 in
theorem delta_spec_2 : Nat.Prime (2 ^ 2 + 1) ∧ ∀ d < 1, ¬ Nat.Prime (2 ^ 2 + d) := by
  refine ⟨primeCheck_sound _ 2 (by decide), ?_⟩
  intro d hd
  interval_cases d
  norm_num

set_option maxRecDepth 10000 in
theorem delta_spec_3 : Nat.Prime (2 ^ 3 + 3) ∧ ∀ d < 3, ¬ Nat.Prime (2 ^ 3 + d) := by
  refine ⟨primeCheck_sound _ 2 (by decide), ?_⟩
  intro d hd
  interval_cases d <;> norm_num

set_option maxRecDepth 10000 in
theorem delta_spec_4 : Nat.Prime (2 ^ 4 + 1) ∧ ∀ d < 1, ¬ Nat.Prime (2 ^ 4 + d) := by
  refine ⟨primeCheck_sound _ 3 (by decide), ?_⟩
  intro d hd
  interval_cases d
  norm_num

set_option maxRecDepth 10000 in
theorem delta_spec_5 : Nat.Prime (2 ^ 5 + 5) ∧ ∀ d < 5, ¬ Nat.Prime (2 ^ 5 + d) := by
  refine ⟨primeCheck_sound _ 4 (by decide), ?_⟩
  intro d hd
  interval_cases d <;> norm_num

set_option maxRecDepth 10000 in
theorem delta_spec_6 : Nat.Prime (2 ^ 6 + 3) ∧ ∀ d < 3, ¬ Nat.Prime (2 ^ 6 + d) := by
  refine ⟨primeCheck_sound _ 5 (by decide), ?_⟩
  intro d hd
  interval_cases d <;> norm_num

set_option maxRecDepth 10000 in
theorem delta_spec_7 : Nat.Prime (2 ^ 7 + 3) ∧ ∀ d < 3, ¬ Nat.Prime (2 ^ 7 + d) := by
  refine ⟨primeCheck_sound _ 6 (by decide), ?_⟩
  intro d hd
  interval_cases d <;> norm_num

set_option maxRecDepth 10000 in
theorem delta_spec_8 : Nat.Prime (2 ^ 8 + 1) ∧ ∀ d < 1, ¬ Nat.Prime (2 ^ 8 + d) := by
  refine ⟨primeCheck_sound _ 9 (by decide), ?_⟩
  intro d hd
  interval_cases d
  norm_num

set_option maxRecDepth 10000 in
theorem delta_spec_9 : Nat.Prime (2 ^ 9 + 9) ∧ ∀ d < 9, ¬ Nat.Prime (2 ^ 9 + d) := by
  refine ⟨primeCheck_sound _ 12 (by decide), ?_⟩
  intro d hd
  interval_cases d <;> norm_num

set_option maxRecDepth 10000 in
theorem delta_spec_10 : Nat.Prime (2 ^ 10 + 7) ∧ ∀ d < 7, ¬ Nat.Prime (2 ^ 10 + d) := by
  refine ⟨primeCheck_sound _ 17 (by decide), ?_⟩
  intro d hd
  interval_cases d <;> norm_num

set_option maxRecDepth 10000 in
theorem delta_spec_11 : Nat.Prime (2 ^ 11 + 5) ∧ ∀ d < 5, ¬ Nat.Prime (2 ^ 11 + d) := by
  refine ⟨primeCheck_sound _ 23 (by decide), ?_⟩
  intro d hd
  interval_cases d <;> norm_num

set_option maxRecDepth 10000 in
theorem delta_spec_12 : Nat.Prime (2 ^ 12 + 3) ∧ ∀ d < 3, ¬ Nat.Prime (2 ^ 12 + d) := by
  refine ⟨primeCheck_sound _ 33 (by decide), ?_⟩
  intro d hd
  interval_cases d <;> norm_num

set_option maxRecDepth 10000 in
theorem delta_spec_13 : Nat.Prime (2 ^ 13 + 17) ∧ ∀ d < 17, ¬ Nat.Prime (2 ^ 13 + d) := by
  refine ⟨primeCheck_sound _ 46 (by decide), ?_⟩
  intro d hd
  interval_cases d <;> norm_num

set_option maxRecDepth 10000 in
theorem delta_spec_14 : Nat.Prime (2 ^ 14 + 27) ∧ ∀ d < 27, ¬ Nat.Prime (2 ^ 14 + d) := by
  refine ⟨primeCheck_sound _ 65 (by decide), ?_⟩
  intro d hd
  interval_cases d <;> norm_num

set_option maxRecDepth 10000 in
theorem delta_spec_15 : Nat.Prime (2 ^ 15 + 3) ∧ ∀ d < 3, ¬ Nat.Prime (2 ^ 15 + d) := by
  refine ⟨primeCheck_sound _ 91 (by decide), ?_⟩
  intro d hd
  interval_cases d <;> norm_num

set_option maxRecDepth 10000 in
theorem delta_spec_16 : Nat.Prime (2 ^ 16 + 1) ∧ ∀ d < 1, ¬ Nat.Prime (2 ^ 16 + d) := by
  refine ⟨primeCheck_sound _ 129 (by decide), ?_⟩
  intro d hd
  interval_cases d
  norm_num

set_option maxRecDepth 10000 in
theorem delta_spec_17 : Nat.Prime (2 ^ 17 + 29) ∧ ∀ d < 29, ¬ Nat.Prime (2 ^ 17 + d) := by
  refine ⟨primeCheck_sound _ 182 (by decide), ?_⟩
  intro d hd
  interval_cases d <;> norm_num

set_option maxRecDepth 10000 in
theorem delta_spec_18 : Nat.Prime (2 ^ 18 + 3) ∧ ∀ d < 3, ¬ Nat.Prime (2 ^ 18 + d) := by
  refine ⟨primeCheck_sound _ 257 (by decide), ?_⟩
  intro d hd
  interval_cases d <;> norm_num

set_option maxRecDepth 10000 in
theorem delta_spec_19 : Nat.Prime (2 ^ 19 + 21) ∧ ∀ d < 21, ¬ Nat.Prime (2 ^ 19 + d) := by
  refine ⟨primeCheck_sound _ 363 (by decide), ?_⟩
  intro d hd
  interval_cases d <;> norm_num

set_option maxRecDepth 10000 in
theorem delta_spec_20 : Nat.Prime (2 ^ 20 + 7) ∧ ∀ d < 7, ¬ Nat.Prime (2 ^ 20 + d) := by
  refine ⟨primeCheck_sound _ 513 (by decide), ?_⟩
  intro d hd
  interval_cases d <;> norm_num

set_option maxRecDepth 10000 in
theorem delta_spec_21 : Nat.Prime (2 ^ 21 + 17) ∧ ∀ d < 17, ¬ Nat.Prime (2 ^ 21 + d) := by
  refine ⟨primeCheck_sound _ 725 (by decide), ?_⟩
  intro d hd
  interval_cases d <;> norm_num

set_option maxRecDepth 10000 in
theorem delta_spec_22 : Nat.Prime (2 ^ 22 + 15) ∧ ∀ d < 15, ¬ Nat.Prime (2 ^ 22 + d) := by
  refine ⟨primeCheck_sound _ 1025 (by decide), ?_⟩
  intro d hd
  interval_cases d <;> norm_num

set_option maxRecDepth 10000 in
theorem delta_spec_23 : Nat.Prime (2 ^ 23 + 9) ∧ ∀ d < 9, ¬ Nat.Prime (2 ^ 23 + d) := by
  refine ⟨primeCheck_sound _ 1449 (by decide), ?_⟩
  intro d hd
  interval_cases d <;> norm_num

set_option maxRecDepth 10000 in
theorem delta_spec_24 : Nat.Prime (2 ^ 24 + 43) ∧ ∀ d < 43, ¬ Nat.Prime (2 ^ 24 + d) := by
  refine ⟨primeCheck_sound _ 2049 (by decide), ?_⟩
  intro d hd
  interval_cases d <;> norm_num

set_option maxRecDepth 10000 in
theorem delta_spec_25 : Nat.Prime (2 ^ 25 + 35) ∧ ∀ d < 35, ¬ Nat.Prime (2 ^ 25 + d) := by
  refine ⟨primeCheck_sound _ 2897 (by decide), ?_⟩
  intro d hd
  interval_cases d <;> norm_num

set_option maxRecDepth 10000 in
theorem delta_spec_26 : Nat.Prime (2 ^ 26 + 15) ∧ ∀ d < 15, ¬ Nat.Prime (2 ^ 26 + d) := by
  refine ⟨primeCheck_sound _ 4097 (by decide), ?_⟩
  intro d hd
  interval_cases d <;> norm_num

set_option maxRecDepth 10000 in
theorem delta_spec_27 : Nat.Prime (2 ^ 27 + 29) ∧ ∀ d < 29, ¬ Nat.Prime (2 ^ 27 + d) := by
  refine ⟨primeCheck_sound _ 5793 (by decide), ?_⟩
  intro d hd
  interval_cases d <;> norm_num

set_option maxRecDepth 10000 in
theorem delta_spec_28 : Nat.Prime (2 ^ 28 + 3) ∧ ∀ d < 3, ¬ Nat.Prime (2 ^ 28 + d) := by
  refine ⟨primeCheck_sound _ 8193 (by decide), ?_⟩
  intro d hd
  interval_cases d <;> norm_num

set_option maxRecDepth 10000 in
theorem delta_spec_29 : Nat.Prime (2 ^ 29 + 11) ∧ ∀ d < 11, ¬ Nat.Prime (2 ^ 29 + d) := by
  refine ⟨primeCheck_sound _ 11586 (by decide), ?_⟩
  intro d hd
  interval_cases d <;> norm_num
/-- C9: for every index i of the precomputed delta array (0 <= i <= 29),
2^i + delta[i] is prime, and delta[i] is the smallest non-negative offset
d such that 2^i + d is prime. -/
theorem C9_delta_prime_minimal :
    ∀ i, i < delta.length →
      Nat.Prime (2 ^ i + delta.getD i 0) ∧
      ∀ d < delta.getD i 0, ¬ Nat.Prime (2 ^ i + d) := by
  intro i h
  have h30 : i < 30 := by simpa [delta] using h
  interval_cases i
  exacts [delta_spec_0, delta_spec_1, delta_spec_2, delta_spec_3, delta_spec_4, delta_spec_5, delta_spec_6, delta_spec_7, delta_spec_8, delta_spec_9, delta_spec_10, delta_spec_11, delta_spec_12, delta_spec_13, delta_spec_14, delta_spec_15, delta_spec_16, delta_spec_17, delta_spec_18, delta_spec_19, delta_spec_20, delta_spec_21, delta_spec_22, delta_spec_23, delta_spec_24, delta_spec_25, delta_spec_26, delta_spec_27, delta_spec_28, delta_spec_29]

/-- Witness for C9 at the concrete index 13: 2^13 + 17 = 8209 is prime
and no smaller offset gives a prime. -/
theorem C9_delta_prime_minimal_witness :
    Nat.Prime (2 ^ 13 + delta.getD 13 0) ∧
    ∀ d < delta.getD 13 0, ¬ Nat.Prime (2 ^ 13 + d) :=
  C9_delta_prime_minimal 13 (by decide)

end OpenAddressing
namespace OpenAddressing

/- Evidence theorems for the claims settled by concrete executions. -/

/-- C1: the claim that `active` equals the number of keys currently
present fails on the code.  After a successful insert(1, 100) into a
fresh default table exactly one slot is Occupied, yet `active` is still
0, because the counter update `active = active++` in the probe-insert
functions assigns the counter back to itself. -/
theorem C1_active_counter_lost :
    (insert_ht 10 defaultInit 1 100).map
        (fun p => (p.2, p.1.active, p.1.table.countP (fun e => e.flag == 1)))
      = some (HT_SUCCESS, 0, 1) := rfl

/-- C3: the claim that insert examines at most size() slots fails for
quadratic probing.  After a successful insert of key 1 (which lands in
slot 0), inserting the distinct key 2 whose probe sequence starts at the
occupied slot 0 never returns, for any recursion budget: the occupied
case of quadratic_probe_insert executes `continue`, which skips the
`i++` at the bottom of the loop, so the same slot is probed forever. -/
theorem C3_quadratic_insert_diverges :
    (insert_ht 10 quadInit 1 100).map Prod.snd = some HT_SUCCESS ∧
    ∀ fuel, insert_ht fuel quadOne 2 200 = none := by
  refine ⟨rfl, ?_⟩
  have hq : ∀ g, quadInsertAux quadOne.table 5 0 g 0 = none := by
    intro g
    induction g with
    | zero => rfl
    | succ g2 ih =>
      rw [show quadInsertAux quadOne.table 5 0 (g2 + 1) 0
            = quadInsertAux quadOne.table 5 0 g2 0 from rfl]
      exact ih
  intro fuel
  cases fuel with
  | zero => rfl
  | succ f =>
    have h1 : insert_ht (f + 1) quadOne 2 200
        = ((quadInsertAux quadOne.table 5 0 (f + 1) 0).map _).map _ := rfl
    rw [h1, hq (f + 1)]
    rfl

/-- C4: the claim that min_size <= size() holds after init fails on the
code.  init_ht with every argument defaulted sets min_size to 13 but
sizes the table at capacity[1] = 2^1 + delta[1] = 2, ignoring
min_size. -/
theorem C4_init_size_below_min_size :
    defaultInit.size = 2 ∧ defaultInit.min_size = 13 ∧
      defaultInit.size < defaultInit.min_size :=
  ⟨rfl, rfl, by decide⟩

/-- C5: the claim that a failed slot-array allocation makes the
triggering operation return MemoryError with the table left intact fails
on the code, which never checks the calloc result.  On an entry-free
table the failed rehash still returns HT_SUCCESS and leaves the NULL
table installed (the old array freed); with a live entry the replay
crashes into the NULL table; HT_MEM_ERROR is never returned. -/
theorem C5_alloc_failure_not_reported :
    (rehash_alloc 10 false defaultInit 5).map
        (fun p => (p.2, p.1.size, p.1.table)) = some (HT_SUCCESS, 5, []) ∧
    ((insert_ht 10 defaultInit 1 100).bind
        (fun p => rehash_alloc 10 false p.1 11)) = none ∧
    HT_MEM_ERROR ≠ HT_SUCCESS :=
  ⟨rfl, rfl, by decide⟩

/-- C6: the claim that a grow advances capacity_step so that size()
equals the sequence value at the new step fails on the code.  The first
insert into a fresh default table triggers the grow ((0+1)/2 >= 0.5) and
rehashes to capacity[2] = 5, but `delta_idx = delta_idx++` leaves
delta_idx at 1, whose sequence value 2^1 + delta[1] = 2 is not the new
size. -/
theorem C6_grow_does_not_advance_capacity_step :
    (insert_ht 10 defaultInit 1 100).map
        (fun p => (p.2, p.1.size, p.1.delta_idx)) = some (HT_SUCCESS, 5, 1) ∧
    2 ^ 1 + delta.getD 1 0 ≠ 5 :=
  ⟨rfl, by decide⟩

/-- C7: the claim that fetch(index) fails with InvalidArgument on any
index not referencing an Occupied slot fails on the code: fetch_ht does
no validation.  On the fresh default table, index 0 references an Empty
slot and fetch returns the calloc-zeroed value 0 instead of an error,
and an out-of-range index is a wild read (modelled as a crash), not an
HT_INVALID_ARG result -- the VALUE_TYPE return of fetch_ht has no error
channel at all. -/
theorem C7_fetch_no_validation :
    fetch_ht defaultInit 0 = some 0 ∧
    (defaultInit.table.get? 0).map HTentry.flag = some 0 ∧
    fetch_ht defaultInit 5 = none :=
  ⟨rfl, rfl, rfl⟩

end OpenAddressing
